import Mathlib

/-!
Verification development for the servbatch execution pipeline.

This file gives a shallow embedding, in Lean 4, of the execution-pipeline
core of the servbatch API server: the command transport (SshService),
the proxy relay gateway (ProxyGateway.sendCommand), the task executor
(TaskExecutorService), the queue manager and scheduler
(QueueManagerService / QueueProcessorService) and the execution cache
(QueueCacheService / TasksService).  Each definition is translated from
the corresponding TypeScript source; asynchronous effects (database
writes, SSH calls, socket events) are made explicit as oracle parameters
or as state passed through the functions.  Theorems at the end settle
the specified properties of the pipeline.
-/

namespace Servbatch

/-- Lifecycle status of a queue item (the `status` column of `queues`). -/
inductive QStatus
  | waiting
  | processing
  | completed
  | failed
  | cancelled
deriving DecidableEq, Repr

/-- Result of running a command: `stdout`, `stderr`, `exitCode`
(the shape returned by `SshService.executeCommand`). -/
structure CommandResult where
  stdout : String
  stderr : String
  exitCode : Int
deriving DecidableEq, Repr

/-- JS string truthiness for an optional string field: present and nonempty. -/
def strTruthy (s : Option String) : Bool :=
  match s with
  | some v => v ≠ ""
  | none => false

/-- JS `x || fallback` on strings: the fallback replaces the empty string. -/
def jsOrString (s fallback : String) : String :=
  if s = "" then fallback else s

/-- A row of the `servers` table as consumed by `SshService`
(connection descriptor for one host). -/
structure ServerRec where
  id : Nat
  host : String
  port : Nat
  username : String
  password : Option String
  privateKey : Option String
  connectionType : String
  proxyId : Option String
deriving DecidableEq, Repr

/-- Result shape of `node-ssh`.`execCommand`: `code` may be null. -/
structure SshExecResult where
  stdout : String
  stderr : String
  code : Option Int
deriving DecidableEq, Repr

/-- Oracle describing the outcomes of the external effects one
`SshService.executeCommand` call can perform: whether a pooled session
exists and passes its health check, whether establishing a fresh SSH
session succeeds, what running the command on the session returns,
whether the proxy agent is in the online set, and what
`ProxyGateway.sendCommand` settles with. -/
structure SshEnv where
  hasPooled : Bool
  pooledHealthy : Bool
  connectOutcome : Except String Unit
  execOutcome : Except String SshExecResult
  proxyOnline : Bool
  sendOutcome : Except String CommandResult

/-- Model of `SshService.getConnection`: reuse the pooled session when it
exists and its health-check command succeeds; otherwise build a config
(password first, else private key, else throw) and connect, throwing on
connection failure.  `Except.error` models a thrown exception. -/
def getConnection (server : ServerRec) (env : SshEnv) : Except String Unit :=
  if env.hasPooled && env.pooledHealthy then
    Except.ok ()
  else if strTruthy server.password || strTruthy server.privateKey then
    match env.connectOutcome with
    | Except.ok _ => Except.ok ()
    | Except.error e =>
        Except.error
          ("无法连接到服务器 " ++ server.host ++ ":" ++ toString server.port ++ ": " ++ e)
  else
    Except.error "未提供密码或私钥"

/-- Model of `SshService.executeCommandViaProxy`: re-checks the proxy id
and the online set, then awaits `ProxyGateway.sendCommand` inside a
try/catch, so every failure path resolves with `exitCode = 1` and the
failure text in `stderr`; this function never throws. -/
def executeCommandViaProxy (server : ServerRec) (env : SshEnv) : CommandResult :=
  if ¬ strTruthy server.proxyId then
    { stdout := "", stderr := "服务器未配置代理ID", exitCode := 1 }
  else if ¬ env.proxyOnline then
    { stdout := "", stderr := "代理 " ++ (server.proxyId.getD "") ++ " 未连接", exitCode := 1 }
  else
    match env.sendOutcome with
    | Except.ok r => r
    | Except.error e => { stdout := "", stderr := e, exitCode := 1 }

/-- Model of `SshService.executeCommand` for an existing server row.
The proxy branch delegates to `executeCommandViaProxy` and never throws.
The direct branch first calls `getConnection` OUTSIDE its try/catch, so a
connection failure propagates as a thrown error; only failures of
`execCommand` on an established session are caught and resolved as
`exitCode = 1`.  A successful `execCommand` maps `result.code || 0`. -/
def executeCommand (server : ServerRec) (env : SshEnv) : Except String CommandResult :=
  if server.connectionType = "proxy" && strTruthy server.proxyId then
    Except.ok (executeCommandViaProxy server env)
  else
    match getConnection server env with
    | Except.error e => Except.error e
    | Except.ok _ =>
        match env.execOutcome with
        | Except.ok r =>
            Except.ok { stdout := r.stdout, stderr := r.stderr, exitCode := r.code.getD 0 }
        | Except.error e =>
            Except.ok { stdout := "", stderr := e, exitCode := 1 }

/-- Outcome a pending `sendCommand` promise can settle with. -/
inductive SettleOutcome
  | resolved (r : CommandResult)
  | rejected (msg : String)
deriving DecidableEq, Repr

/-- Raw payload delivered to the one-shot `command_result` listener: each
expected field may be missing (the agent controls the shape). -/
structure RawResult where
  stdoutField : Option String
  stderrField : Option String
  exitCodeField : Option Int
deriving DecidableEq, Repr

/-- Shape validation performed by the listener in `ProxyGateway.sendCommand`:
`stdout`, `stderr` and `exitCode` must all be present. -/
def shapeValid (r : RawResult) : Bool :=
  r.stdoutField.isSome && r.stderrField.isSome && r.exitCodeField.isSome

/-- Reads the validated fields of a raw result. -/
def toCommandResult (r : RawResult) : CommandResult :=
  { stdout := r.stdoutField.getD ""
    stderr := r.stderrField.getD ""
    exitCode := r.exitCodeField.getD 0 }

/-- Events that can reach one pending `sendCommand` call: a
`command_result` emission carrying a command id and payload, the firing
of the timeout timer, or an error acknowledgement from the agent's
`emit` callback. -/
inductive GatewayEvent
  | resultEvent (commandId : String) (payload : Option RawResult)
  | timerFire
  | ackError (msg : String)
deriving DecidableEq, Repr

/-- Transient state of one in-flight `sendCommand` promise: whether it has
settled (and with what), whether the one-shot listener is still
registered on the event emitter, and whether the timeout timer is still
armed. -/
structure PendingCommand where
  settled : Option SettleOutcome
  listenerOn : Bool
  timerOn : Bool
deriving DecidableEq, Repr

/-- State right after `sendCommand` registers its listener and timer. -/
def initialPending : PendingCommand :=
  { settled := none, listenerOn := true, timerOn := true }

/-- The `cleanup` closure of `sendCommand`: clears the timer and removes
the listener; idempotent. -/
def cleanupPending (s : PendingCommand) : PendingCommand :=
  { s with listenerOn := false, timerOn := false }

/-- Settling a JS promise: the first settlement wins, later attempts are
no-ops. -/
def settleWith (s : PendingCommand) (o : SettleOutcome) : PendingCommand :=
  { s with settled := some (s.settled.getD o) }

/-- One event delivered to the pending command for command id `myId`,
following `ProxyGateway.sendCommand`: the listener body runs only while
the listener is registered and the event name (which embeds the command
id) matches; it cleans up and then resolves on a valid shape or rejects
on an invalid one.  The timer body runs only while the timer is armed;
it cleans up and rejects with the timeout error.  The emit
acknowledgement callback unconditionally cleans up and attempts a
rejection. -/
def stepPending (myId : String) (s : PendingCommand) (e : GatewayEvent) : PendingCommand :=
  match e with
  | GatewayEvent.resultEvent cid payload =>
      if s.listenerOn && cid = myId then
        let s1 := cleanupPending s
        match payload with
        | some r =>
            if shapeValid r then
              settleWith s1 (SettleOutcome.resolved (toCommandResult r))
            else
              settleWith s1 (SettleOutcome.rejected "命令返回结果格式不正确")
        | none => settleWith s1 (SettleOutcome.rejected "命令返回结果格式不正确")
      else s
  | GatewayEvent.timerFire =>
      if s.timerOn then
        settleWith (cleanupPending s) (SettleOutcome.rejected "命令执行超时")
      else s
  | GatewayEvent.ackError msg =>
      settleWith (cleanupPending s) (SettleOutcome.rejected ("代理端执行命令出错: " ++ msg))

/-- Folds a sequence of events over a pending command state. -/
def runPending (myId : String) (s : PendingCommand) (evs : List GatewayEvent) : PendingCommand :=
  evs.foldl (stepPending myId) s

/-- The wait bound of `sendCommand`: `command.timeout || 30000` (a missing
or zero timeout falls back to the 30000 ms default). -/
def maxWaitTime (timeout : Option Nat) : Nat :=
  match timeout with
  | some t => if t = 0 then 30000 else t
  | none => 30000

/-- Per-host outcome of one `sshService.executeCommand` call as seen by the
task executor: either the call resolved with a command result, or it
threw (connectivity failure); a thrown error has a message and, possibly,
a numeric `exitCode` property. -/
inductive HostOutcome
  | ok (stdout stderr : String) (exitCode : Int)
  | err (msg : String) (errExitCode : Option Int)
deriving DecidableEq, Repr

/-- The value produced for one host by `executeCommandsOnServers`
(interface `ExecutionCommandResult`): the inner try/catch turns a thrown
transport error into a fulfilled value with `success = false`,
`exitCode = -1` and the error message as `stderr`. -/
structure ExecCommandOutcome where
  executionId : Nat
  success : Bool
  errMsg : Option String
  errExitCode : Option Int
  stdout : String
  stderr : String
  exitCode : Int
deriving DecidableEq, Repr

/-- Per-host body of `executeCommandsOnServers`: the transport call is
wrapped in its own try/catch, so no host's failure can reject the joint
`Promise.allSettled`. -/
def dispatchOne (execId : Nat) (o : HostOutcome) : ExecCommandOutcome :=
  match o with
  | HostOutcome.ok out errS c =>
      { executionId := execId, success := true, errMsg := none, errExitCode := none
        stdout := out, stderr := errS, exitCode := c }
  | HostOutcome.err m ec =>
      { executionId := execId, success := false, errMsg := some m, errExitCode := ec
        stdout := "", stderr := jsOrString m "Command execution failed", exitCode := -1 }

/-- Status of an execution record (`task_executions.status`). -/
inductive EStatus
  | running
  | completed
  | failed
deriving DecidableEq, Repr

/-- The update written to one `TaskExecution` row when its outcome is
reconciled. -/
structure ExecUpdate where
  status : EStatus
  output : String
  exitCode : Option Int
  completedAtSet : Bool
deriving DecidableEq, Repr

/-- Reconciliation of one settled outcome by `processExecutionResults`:
a successful transport call is recorded via `updateSuccessfulExecution`
(`completed` iff the exit code is 0, combined stdout/stderr blob), a
failed one via `updateFailedExecution` (status `failed`, error message as
output, the error's own exit code when numeric, else -1). -/
def processOne (r : ExecCommandOutcome) : ExecUpdate :=
  if r.success then
    { status := if r.exitCode = 0 then EStatus.completed else EStatus.failed
      output := "stdout: " ++ r.stdout ++ "\nstderr: " ++ r.stderr
      exitCode := some r.exitCode
      completedAtSet := true }
  else
    { status := EStatus.failed
      output := jsOrString (r.errMsg.getD "") "Execution failed or promise rejected"
      exitCode := some (r.errExitCode.getD (-1))
      completedAtSet := true }

/-- Steps 3 and 4 of the executor for a list of execution record ids: each
host's outcome is dispatched and reconciled independently of the others
(`Promise.allSettled` followed by per-result updates). -/
def runHosts (execIds : List Nat) (outcomes : Nat → HostOutcome) : List (Nat × ExecUpdate) :=
  execIds.map (fun i => (i, processOne (dispatchOne i (outcomes i))))

/-- A row of the `tasks` table as consumed by the executor. -/
structure TaskRec where
  id : Nat
  name : String
  command : String
  timeout : Option Nat
deriving DecidableEq, Repr

/-- Model of `TaskExecutorService.executeTask` for one queue item.
Oracles: `task` is the (cached) lookup result of step 1; `createOk`
tells whether the step-2 creation transaction committed; `outcomes`
gives each host's transport outcome; `reconcileErr` is `some msg` when
an exception escapes steps 3/4.  Returns the final queue status together
with the updates written to the execution records.  The catch block
marks still-running executions failed (without an exit code) and the
queue item `failed`; the success path marks the queue item `completed`
without consulting the per-host outcomes. -/
def executeTaskModel (task : Option TaskRec) (createOk : Bool) (serverIds : List Nat)
    (outcomes : Nat → HostOutcome) (reconcileErr : Option String) :
    QStatus × List (Nat × ExecUpdate) :=
  match task with
  | none => (QStatus.failed, [])
  | some _ =>
      if createOk = false then
        (QStatus.failed, [])
      else if serverIds.isEmpty then
        (QStatus.failed, [])
      else
        match reconcileErr with
        | none => (QStatus.completed, runHosts serverIds outcomes)
        | some e =>
            (QStatus.failed,
              serverIds.map (fun i =>
                (i, { status := EStatus.failed
                      output := "Execution failed due to error: " ++ e
                      exitCode := none
                      completedAtSet := true })))

/-- A row of the `queues` table. -/
structure QueueRecord where
  id : Nat
  taskId : Nat
  serverIds : List Nat
  priority : Int
  status : QStatus
  createdAt : Nat
  startedAt : Option Nat
  completedAt : Option Nat
deriving DecidableEq, Repr

/-- The `queues` table. -/
abbrev QueueDB := List QueueRecord

/-- Looks up a queue row by id. -/
def recordOf (db : QueueDB) (qid : Nat) : Option QueueRecord :=
  db.find? (fun r => r.id = qid)

/-- Status of a queue row, when it exists. -/
def statusOf (db : QueueDB) (qid : Nat) : Option QStatus :=
  (recordOf db qid).map (fun r => r.status)

/-- Model of `QueueManagerService.enqueue`: inserts a fresh `waiting` row
(`id` is the value the database assigns). -/
def enqueue (newId taskId : Nat) (serverIds : List Nat) (priority : Int)
    (now : Nat) (db : QueueDB) : QueueDB :=
  db ++ [{ id := newId, taskId := taskId, serverIds := serverIds, priority := priority
           status := QStatus.waiting, createdAt := now, startedAt := none, completedAt := none }]

/-- Model of `QueueManagerService.cancel`: sets the status to `cancelled`
unconditionally; no other column is written. -/
def cancelQueue (qid : Nat) (db : QueueDB) : QueueDB :=
  db.map (fun r => if r.id = qid then { r with status := QStatus.cancelled } else r)

/-- The update object built by `QueueManagerService.updateQueueStatus`:
`completedAt` is added only for `completed` and `failed` (defaulting to
now), `startedAt` only for `processing`. -/
def applyStatusData (st : QStatus) (completedAtArg : Option Nat) (now : Nat)
    (r : QueueRecord) : QueueRecord :=
  let r1 := { r with status := st }
  let r2 :=
    if st = QStatus.completed ∨ st = QStatus.failed then
      { r1 with completedAt := some (completedAtArg.getD now) }
    else r1
  if st = QStatus.processing then { r2 with startedAt := some now } else r2

/-- Model of `QueueManagerService.updateQueueStatus`. -/
def updateQueueStatus (qid : Nat) (st : QStatus) (completedAtArg : Option Nat)
    (now : Nat) (db : QueueDB) : QueueDB :=
  db.map (fun r => if r.id = qid then applyStatusData st completedAtArg now r else r)

/-- Model of `QueueManagerService.markTasksAsProcessing`: batch update of
the given rows to `processing`, setting `startedAt`. -/
def markTasksAsProcessing (qids : List Nat) (now : Nat) (db : QueueDB) : QueueDB :=
  if qids.isEmpty then db
  else
    db.map (fun r =>
      if qids.contains r.id then
        { r with status := QStatus.processing, startedAt := some now }
      else r)

/-- Model of `QueueManagerService.resetProcessingTasks` (startup recovery):
every `processing` row is reset to `waiting` with `startedAt` cleared. -/
def resetProcessingTasks (db : QueueDB) : QueueDB :=
  db.map (fun r =>
    if r.status = QStatus.processing then
      { r with status := QStatus.waiting, startedAt := none }
    else r)

/-- The ordering used by `fetchWaitingTasks` (`orderBy priority desc,
createdAt asc`): `a` comes no later than `b`. -/
def queueBefore (a b : QueueRecord) : Prop :=
  b.priority < a.priority ∨ (a.priority = b.priority ∧ a.createdAt ≤ b.createdAt)

instance : DecidableRel queueBefore := fun a b => by
  unfold queueBefore
  exact inferInstance

instance : IsTotal QueueRecord queueBefore :=
  ⟨fun a b => by
    unfold queueBefore
    rcases lt_trichotomy a.priority b.priority with h | h | h
    · exact Or.inr (Or.inl h)
    · rcases Nat.le_total a.createdAt b.createdAt with hc | hc
      · exact Or.inl (Or.inr ⟨h, hc⟩)
      · exact Or.inr (Or.inr ⟨h.symm, hc⟩)
    · exact Or.inl (Or.inl h)⟩

instance : IsTrans QueueRecord queueBefore :=
  ⟨fun a b c hab hbc => by
    unfold queueBefore at hab hbc ⊢
    rcases hab with h1 | ⟨h1, h1c⟩
    · rcases hbc with h2 | ⟨h2, _⟩
      · exact Or.inl (h2.trans h1)
      · exact Or.inl (h2 ▸ h1)
    · rcases hbc with h2 | ⟨h2, h2c⟩
      · exact Or.inl (h1 ▸ h2)
      · exact Or.inr ⟨h1.trans h2, h1c.trans h2c⟩⟩

/-- Model of `QueueProcessorService.fetchWaitingTasks`: the `waiting` rows,
ordered by priority descending then creation time ascending, truncated to
`limit` (`take: limit`). -/
def fetchWaitingTasks (limit : Nat) (db : QueueDB) : List QueueRecord :=
  List.take limit
    (List.insertionSort queueBefore (db.filter (fun r => r.status = QStatus.waiting)))

/-- The scheduler's concurrency ceiling (`maxConcurrentTasks`). -/
def maxConcurrentTasks : Nat := 10

/-- Model of `QueueProcessorService.checkResourceAvailability`. -/
def checkResourceAvailability (isProcessing : Bool) (runningTasks : Nat) : Bool :=
  !(isProcessing || decide (maxConcurrentTasks ≤ runningTasks))

/-- Model of `QueueProcessorService.calculateAvailableSlots`. -/
def calculateAvailableSlots (runningTasks : Nat) : Int :=
  (maxConcurrentTasks : Int) - (runningTasks : Int)

/-- The claiming portion of `QueueProcessorService.processQueueLoop` for one
tick: skip when unavailable, skip when no slots, else fetch up to
`availableSlots` waiting rows. -/
def processTickClaim (isProcessing : Bool) (runningTasks : Nat) (db : QueueDB) :
    List QueueRecord :=
  if checkResourceAvailability isProcessing runningTasks then
    let slots := calculateAvailableSlots runningTasks
    if slots ≤ 0 then [] else fetchWaitingTasks slots.toNat db
  else []

/-- In-memory scheduler bookkeeping alongside the `queues` table:
`inflight` holds the ids handed to the executor whose promises have not
settled yet; `dupFailed` holds ids whose `executeTask` promise rejected,
for which the scheduler's `.catch` will write `failed` once more;
`fetched` holds the ids captured by a tick's `fetchWaitingTasks` read
whose `markTasksAsProcessing` write has not happened yet (the tick is
non-reentrant, so at most one such batch is pending, but other
operations — in particular `cancel` — can run between the two awaited
database calls). -/
structure SysState where
  db : QueueDB
  inflight : List Nat
  dupFailed : List Nat
  fetched : Option (List Nat)

/-- The operations the running system performs on queue rows:
enqueue; the tick's `fetchWaitingTasks` read (which only captures the ids
of rows that were `waiting` at read time — `fetched`); the tick's
subsequent `markTasksAsProcessing` write of exactly the captured ids — a
separate awaited, unguarded `updateMany` by id, so a `cancel` landing
between the two is overwritten; an external `cancel` call; the executor
finishing a queue item (`updateQueueStatus` with `completed` on the
success path or `failed` in its catch block); and the scheduler's
duplicate `failed` write from its `.catch` after the executor rethrew. -/
inductive SysOp
  | enq (newId taskId : Nat) (serverIds : List Nat) (priority : Int) (now : Nat)
  | fetchBatch (qids : List Nat)
  | markBatch (qids : List Nat) (now : Nat)
  | cancelIt (qid : Nat)
  | finish (qid : Nat) (ok : Bool) (now : Nat)
  | dupFinishFail (qid : Nat) (now : Nat)
deriving DecidableEq, Repr

/-- Effect of one operation on the database and the bookkeeping. -/
def applySysOp (s : SysState) (op : SysOp) : SysState :=
  match op with
  | SysOp.enq i t sv p now => { s with db := enqueue i t sv p now s.db }
  | SysOp.fetchBatch qids => { s with fetched := some qids }
  | SysOp.markBatch qids now =>
      { db := markTasksAsProcessing qids now s.db
        inflight := s.inflight ++ qids
        dupFailed := s.dupFailed
        fetched := none }
  | SysOp.cancelIt q => { s with db := cancelQueue q s.db }
  | SysOp.finish q ok now =>
      { db := updateQueueStatus q (if ok then QStatus.completed else QStatus.failed) none now s.db
        inflight := s.inflight.erase q
        dupFailed := if ok then s.dupFailed else q :: s.dupFailed
        fetched := s.fetched }
  | SysOp.dupFinishFail q now =>
      { s with db := updateQueueStatus q QStatus.failed none now s.db
               dupFailed := s.dupFailed.erase q }

/-- When the system can perform an operation: enqueue uses a fresh id;
the tick's fetch query returns (pairwise distinct) rows that are
`waiting` at read time, and only runs when no tick is mid-flight
(`isProcessing` makes the tick non-reentrant); the tick's mark write
targets exactly the ids the pending fetch captured — with no freshness
guard, which is what lets a concurrent `cancel` be overwritten;
`cancel` is unguarded (the documented looseness); the executor settles
only items that were handed to it; and the duplicate `failed` write
happens only after the executor rethrew for that item. -/
def SysOpWF (s : SysState) : SysOp → Prop
  | SysOp.enq i _ _ _ _ => recordOf s.db i = none
  | SysOp.fetchBatch qids =>
      s.fetched = none ∧ qids.Nodup ∧ ∀ q ∈ qids, statusOf s.db q = some QStatus.waiting
  | SysOp.markBatch qids _ => s.fetched = some qids
  | SysOp.cancelIt _ => True
  | SysOp.finish q _ _ => q ∈ s.inflight
  | SysOp.dupFinishFail q _ => q ∈ s.dupFailed

/-- States the running system can be in, starting from an empty queue
table with no in-flight executors and no tick mid-flight. -/
inductive SysReachable : SysState → Prop
  | init : SysReachable { db := [], inflight := [], dupFailed := [], fetched := none }
  | step (s : SysState) (op : SysOp) :
      SysReachable s → SysOpWF s op → SysReachable (applySysOp s op)

/-- The `tasks` table. -/
abbrev TaskStore := List TaskRec

/-- One entry of `QueueCacheService.taskCache`: value plus the timestamp
it was stored at. -/
structure TaskCacheEntry where
  value : TaskRec
  timestamp : Nat
deriving DecidableEq, Repr

/-- The task cache, a map from task id to entry (JS `Map`). -/
abbrev TaskCache := List (Nat × TaskCacheEntry)

/-- The cache TTL of `QueueCacheService` (30 seconds, in ms). -/
def cacheTTL : Nat := 30000

/-- Cache lookup (JS `Map.get`). -/
def cacheGet (k : Nat) (cache : TaskCache) : Option TaskCacheEntry :=
  (cache.find? (fun p => p.1 = k)).map (fun p => p.2)

/-- Cache insertion (JS `Map.set`): replaces an existing binding, else
appends. -/
def cacheSet (k : Nat) (e : TaskCacheEntry) (cache : TaskCache) : TaskCache :=
  if cache.any (fun p => p.1 = k) then
    cache.map (fun p => if p.1 = k then (k, e) else p)
  else cache ++ [(k, e)]

/-- Cache deletion (JS `Map.delete`). -/
def cacheDelete (k : Nat) (cache : TaskCache) : TaskCache :=
  cache.filter (fun p => ¬ p.1 = k)

/-- Result of one `QueueCacheService.getTask` call: the task found (if any),
the cache afterwards, and whether storage was queried. -/
structure GetTaskResult where
  task : Option TaskRec
  cache : TaskCache
  fetchedFromStore : Bool
deriving DecidableEq, Repr

/-- Model of `QueueCacheService.getTask`: serve a cache entry younger than
the TTL; otherwise fetch from storage, caching a hit and evicting the key
on a miss (a not-found result is never cached). -/
def getTask (taskId : Nat) (now : Nat) (cache : TaskCache) (store : TaskStore) :
    GetTaskResult :=
  match cacheGet taskId cache with
  | some e =>
      if now - e.timestamp < cacheTTL then
        { task := some e.value, cache := cache, fetchedFromStore := false }
      else
        getTaskFetch taskId now cache store
  | none => getTaskFetch taskId now cache store
where
  /-- The storage-fetch branch of `getTask`. -/
  getTaskFetch (taskId : Nat) (now : Nat) (cache : TaskCache) (store : TaskStore) :
      GetTaskResult :=
    match store.find? (fun t => t.id = taskId) with
    | some t =>
        { task := some t
          cache := cacheSet taskId { value := t, timestamp := now } cache
          fetchedFromStore := true }
    | none =>
        { task := none, cache := cacheDelete taskId cache, fetchedFromStore := true }

/-- The optional fields of `UpdateTaskDto`. -/
structure UpdateTaskDto where
  name : Option String
  command : Option String
  timeout : Option Nat
deriving DecidableEq, Repr

/-- Applying an `UpdateTaskDto` to a task row (prisma partial update). -/
def applyDto (dto : UpdateTaskDto) (t : TaskRec) : TaskRec :=
  { t with
    name := dto.name.getD t.name
    command := dto.command.getD t.command
    timeout := match dto.timeout with | some v => some v | none => t.timeout }

/-- Model of `TasksService.update`: a prisma `task.update` on the row.
`TasksService` holds no reference to `QueueCacheService`, so the task
cache is returned unchanged — no invalidation happens here. -/
def tasksServiceUpdate (id : Nat) (dto : UpdateTaskDto)
    (store : TaskStore) (cache : TaskCache) : TaskStore × TaskCache :=
  (store.map (fun t => if t.id = id then applyDto dto t else t), cache)

/-- Model of `TasksService.remove`: one transaction deleting the task's
execution history and then the task itself.  As with `update`, the task
cache is returned unchanged — no invalidation happens here. -/
def tasksServiceRemove (id : Nat) (store : TaskStore) (execs : List (Nat × Nat))
    (cache : TaskCache) : TaskStore × List (Nat × Nat) × TaskCache :=
  (store.filter (fun t => ¬ t.id = id), execs.filter (fun e => ¬ e.2 = id), cache)

/-- The two mutations of the scheduler's in-memory running-task counter. -/
inductive CounterOp
  | inc
  | dec
deriving DecidableEq, Repr

/-- Model of `QueueProcessorService.incrementRunningTasks`. -/
def incrementRunningTasks (n : Int) : Int := n + 1

/-- Model of `QueueProcessorService.decrementRunningTasks`
(`Math.max(0, runningTasks - 1)`). -/
def decrementRunningTasks (n : Int) : Int := max 0 (n - 1)

/-- Applies one counter operation. -/
def applyCounterOp (n : Int) : CounterOp → Int
  | CounterOp.inc => incrementRunningTasks n
  | CounterOp.dec => decrementRunningTasks n

/-- The counter after a sequence of increments and decrements, starting
from its initial value 0. -/
def runCounter (ops : List CounterOp) : Int :=
  ops.foldl applyCounterOp 0

/-- Invariant tying the scheduler bookkeeping to the queue table: items
handed to the executor are `processing` unless cancelled mid-flight;
items awaiting the duplicate `failed` write are `failed` unless cancelled
mid-flight; the in-flight list has no duplicates and is disjoint from the
duplicate-write list; and the ids captured by a pending tick fetch are
pairwise distinct, still `waiting` unless cancelled since the fetch, and
not in either bookkeeping list. -/
def SysInv (s : SysState) : Prop :=
  s.inflight.Nodup ∧
  (∀ q ∈ s.inflight,
    statusOf s.db q = some QStatus.processing ∨ statusOf s.db q = some QStatus.cancelled) ∧
  (∀ q ∈ s.dupFailed,
    statusOf s.db q = some QStatus.failed ∨ statusOf s.db q = some QStatus.cancelled) ∧
  (∀ q ∈ s.dupFailed, q ∉ s.inflight) ∧
  (∀ qids, s.fetched = some qids → qids.Nodup ∧
    ∀ q ∈ qids,
      (statusOf s.db q = some QStatus.waiting ∨ statusOf s.db q = some QStatus.cancelled) ∧
      q ∉ s.inflight ∧ q ∉ s.dupFailed)

/-- The status transitions one system operation can cause on one queue
row: no change; row creation as `waiting`; the mark-processing write
landing on a still-`waiting` row; `cancel` overwriting any existing
status with `cancelled`; the executor finishing a `processing` item as
`completed` or `failed`; the executor finish write landing on an item
cancelled while in flight; the duplicate `failed` write re-marking a
`failed` item; and the mark-processing write landing on an item
cancelled between the tick's fetch and its mark. -/
def statusTransOK (pre post : Option QStatus) : Prop :=
  pre = post
  ∨ (pre = none ∧ post = some QStatus.waiting)
  ∨ (pre = some QStatus.waiting ∧ post = some QStatus.processing)
  ∨ (pre ≠ none ∧ post = some QStatus.cancelled)
  ∨ (pre = some QStatus.processing ∧
      (post = some QStatus.completed ∨ post = some QStatus.failed))
  ∨ (pre = some QStatus.cancelled ∧
      (post = some QStatus.completed ∨ post = some QStatus.failed))
  ∨ (pre = some QStatus.failed ∧ post = some QStatus.failed)
  ∨ (pre = some QStatus.cancelled ∧ post = some QStatus.processing)

/-- A pending command that has settled always has its listener and timer
removed. -/
def cleanedWhenSettled (s : PendingCommand) : Prop :=
  s.settled.isSome = true → s.listenerOn = false ∧ s.timerOn = false

/-- A concrete direct-connection server row, used as test input. -/
def exDirectServer : ServerRec :=
  { id := 1, host := "10.0.0.1", port := 22, username := "root", password := some "pw",
    privateKey := none, connectionType := "direct", proxyId := none }

/-- The same host configured to connect through proxy agent p1. -/
def exProxyServer : ServerRec :=
  { exDirectServer with connectionType := "proxy", proxyId := some "p1" }

/-- A transport environment in which every external step fails:
no pooled session, connection refused, offline proxy. -/
def exConnFailEnv : SshEnv :=
  { hasPooled := false, pooledHealthy := false
    connectOutcome := Except.error "connect ECONNREFUSED"
    execOutcome := Except.error "never reached"
    proxyOnline := false
    sendOutcome := Except.error "never reached" }

/-- A concrete task row, used as test input. -/
def exTask : TaskRec := { id := 3, name := "t", command := "exit 0", timeout := none }

/-- Outcomes in which every host fails with a connectivity error. -/
def exErrOutcomes : Nat → HostOutcome := fun _ => HostOutcome.err "unreachable" none

/-- Outcomes in which host 1 succeeds with exit code 0 and every other
host fails with a connectivity error. -/
def exMixedOutcomes : Nat → HostOutcome := fun i =>
  if i = 1 then HostOutcome.ok "out" "" 0 else HostOutcome.err "unreachable" none

/-- A waiting row with priority 1 created at time 0. -/
def wRow1 : QueueRecord :=
  { id := 1, taskId := 1, serverIds := [], priority := 1, status := QStatus.waiting
    createdAt := 0, startedAt := none, completedAt := none }

/-- A waiting row with priority 5 created at time 9. -/
def wRow2 : QueueRecord :=
  { id := 2, taskId := 1, serverIds := [], priority := 5, status := QStatus.waiting
    createdAt := 9, startedAt := none, completedAt := none }

/-- A waiting row with priority 5 created at time 4. -/
def wRow3 : QueueRecord :=
  { id := 3, taskId := 1, serverIds := [], priority := 5, status := QStatus.waiting
    createdAt := 4, startedAt := none, completedAt := none }

/-- A queue backlog of three waiting rows. -/
def wdb : QueueDB := [wRow1, wRow2, wRow3]

/-- System state after enqueueing row 1. -/
def cexS1 : SysState :=
  applySysOp { db := [], inflight := [], dupFailed := [], fetched := none }
    (SysOp.enq 1 5 [2] 0 0)

/-- System state after the tick's fetch query captures the waiting row 1. -/
def cexS2 : SysState := applySysOp cexS1 (SysOp.fetchBatch [1])

/-- System state after row 1 is cancelled between the tick's fetch and its
mark-processing write. -/
def cexS3 : SysState := applySysOp cexS2 (SysOp.cancelIt 1)

/-- System state after the tick's mark-processing write lands on the
already cancelled row 1. -/
def cexS4 : SysState := applySysOp cexS3 (SysOp.markBatch [1] 1)

/-- System state after row 1 is cancelled again while its executor is in
flight. -/
def cexS5 : SysState := applySysOp cexS4 (SysOp.cancelIt 1)

/-- System state after the executor's finish write lands on the cancelled
row 1. -/
def cexS6 : SysState := applySysOp cexS5 (SysOp.finish 1 true 2)

/-- A concrete task row with command old, used as cache test input. -/
def exOldTask : TaskRec := { id := 7, name := "t", command := "old", timeout := none }

/-- A task store holding only `exOldTask`. -/
def exStore : TaskStore := [exOldTask]

/-- A task cache populated with `exOldTask` at time 0. -/
def exCache : TaskCache := [(7, { value := exOldTask, timestamp := 0 })]

/-- A dto changing the command of a task to new. -/
def exUpdateDto : UpdateTaskDto := { name := none, command := some "new", timeout := none }

/-! Helper lemmas about queue-table lookups under the update operations. -/

theorem recordOf_map (db : QueueDB) (q : Nat) (g : QueueRecord → QueueRecord)
    (hid : ∀ r, (g r).id = r.id) :
    recordOf (db.map g) q = (recordOf db q).map g := by
  induction db with
  | nil => rfl
  | cons r tl ih =>
    by_cases h : r.id = q
    · unfold recordOf
      rw [List.map_cons, List.find?_cons_of_pos _ (by simpa [hid] using h),
        List.find?_cons_of_pos _ (by simpa using h)]
      rfl
    · unfold recordOf
      rw [List.map_cons, List.find?_cons_of_neg _ (by simpa [hid] using h),
        List.find?_cons_of_neg _ (by simpa using h)]
      exact ih

theorem recordOf_id (db : QueueDB) (q : Nat) (r : QueueRecord)
    (h : recordOf db q = some r) : r.id = q := by
  have := List.find?_some h
  simpa using this

theorem recordOf_append (db : QueueDB) (l2 : QueueDB) (q : Nat) :
    recordOf (db ++ l2) q = (recordOf db q).or (recordOf l2 q) := by
  unfold recordOf
  exact List.find?_append

theorem recordOf_cancelQueue_self (db : QueueDB) (q : Nat) (r : QueueRecord)
    (h : recordOf db q = some r) :
    recordOf (cancelQueue q db) q = some { r with status := QStatus.cancelled } := by
  unfold cancelQueue
  rw [recordOf_map db q _ (fun x => by by_cases hx : x.id = q <;> simp [hx]), h]
  simp [recordOf_id db q r h]

theorem recordOf_cancelQueue_other (db : QueueDB) (q q2 : Nat) (hne : q2 ≠ q) :
    recordOf (cancelQueue q db) q2 = recordOf db q2 := by
  unfold cancelQueue
  rw [recordOf_map db q2 _ (fun x => by by_cases hx : x.id = q <;> simp [hx])]
  cases h : recordOf db q2 with
  | none => rfl
  | some r =>
    have hid := recordOf_id db q2 r h
    simp [hid, hne]

theorem recordOf_updateQueueStatus_self (db : QueueDB) (q : Nat) (st : QStatus)
    (ca : Option Nat) (now : Nat) (r : QueueRecord) (h : recordOf db q = some r) :
    recordOf (updateQueueStatus q st ca now db) q = some (applyStatusData st ca now r) := by
  unfold updateQueueStatus
  rw [recordOf_map db q _
    (fun x => by by_cases hx : x.id = q <;> simp [hx, applyStatusData] <;> split <;> split <;> rfl), h]
  simp [recordOf_id db q r h]

theorem recordOf_updateQueueStatus_other (db : QueueDB) (q q2 : Nat) (st : QStatus)
    (ca : Option Nat) (now : Nat) (hne : q2 ≠ q) :
    recordOf (updateQueueStatus q st ca now db) q2 = recordOf db q2 := by
  unfold updateQueueStatus
  rw [recordOf_map db q2 _
    (fun x => by by_cases hx : x.id = q <;> simp [hx, applyStatusData] <;> split <;> split <;> rfl)]
  cases h : recordOf db q2 with
  | none => rfl
  | some r =>
    have hid := recordOf_id db q2 r h
    simp [hid, hne]

theorem recordOf_markProcessing_mem (db : QueueDB) (qids : List Nat) (now : Nat)
    (q : Nat) (hq : q ∈ qids) (r : QueueRecord) (h : recordOf db q = some r) :
    recordOf (markTasksAsProcessing qids now db) q =
      some { r with status := QStatus.processing, startedAt := some now } := by
  unfold markTasksAsProcessing
  have hne : qids.isEmpty = false := by
    cases qids with
    | nil => cases hq
    | cons a l => rfl
  rw [hne]
  simp only [Bool.false_eq_true, if_false]
  rw [recordOf_map db q _ (fun x => by by_cases hx : x.id ∈ qids <;> simp [hx]), h]
  have hid := recordOf_id db q r h
  simp [hid, hq]

theorem recordOf_markProcessing_not_mem (db : QueueDB) (qids : List Nat) (now : Nat)
    (q2 : Nat) (hq : q2 ∉ qids) :
    recordOf (markTasksAsProcessing qids now db) q2 = recordOf db q2 := by
  unfold markTasksAsProcessing
  cases he : qids.isEmpty with
  | true => simp
  | false =>
    simp only [Bool.false_eq_true, if_false]
    rw [recordOf_map db q2 _ (fun x => by by_cases hx : x.id ∈ qids <;> simp [hx])]
    cases h : recordOf db q2 with
    | none => rfl
    | some r =>
      have hid := recordOf_id db q2 r h
      simp [hid, hq]

theorem statusOf_cancelQueue_self (db : QueueDB) (q : Nat) :
    statusOf (cancelQueue q db) q = (statusOf db q).map (fun _ => QStatus.cancelled) := by
  unfold statusOf
  cases h : recordOf db q with
  | none =>
    unfold cancelQueue
    rw [recordOf_map db q _ (fun x => by by_cases hx : x.id = q <;> simp [hx]), h]
    rfl
  | some r =>
    rw [recordOf_cancelQueue_self db q r h]
    simp

theorem statusOf_enqueue (db : QueueDB) (i t : Nat) (sv : List Nat) (p : Int) (now : Nat)
    (q : Nat) :
    statusOf (enqueue i t sv p now db) q =
      if (statusOf db q).isSome then statusOf db q
      else if i = q then some QStatus.waiting else none := by
  unfold statusOf enqueue
  rw [recordOf_append]
  cases h : recordOf db q with
  | some r => simp
  | none =>
    by_cases hi : i = q
    · simp [recordOf, List.find?, hi]
    · simp [recordOf, List.find?, hi]

theorem applyStatusData_status (st : QStatus) (ca : Option Nat) (now : Nat)
    (r : QueueRecord) : (applyStatusData st ca now r).status = st := by
  unfold applyStatusData
  dsimp only
  split
  · split
    · rfl
    · rfl
  · split
    · rfl
    · rfl

theorem statusOf_updateQueueStatus_self (db : QueueDB) (q : Nat) (st : QStatus)
    (ca : Option Nat) (now : Nat) :
    statusOf (updateQueueStatus q st ca now db) q = (statusOf db q).map (fun _ => st) := by
  unfold statusOf
  cases h : recordOf db q with
  | none =>
    unfold updateQueueStatus
    rw [recordOf_map db q _
      (fun x => by by_cases hx : x.id = q <;> simp [hx, applyStatusData] <;> split <;> split <;> rfl)]
    rw [h]
    rfl
  | some r =>
    rw [recordOf_updateQueueStatus_self db q st ca now r h]
    simp [applyStatusData_status]

theorem statusOf_updateQueueStatus_other (db : QueueDB) (q q2 : Nat) (st : QStatus)
    (ca : Option Nat) (now : Nat) (hne : q2 ≠ q) :
    statusOf (updateQueueStatus q st ca now db) q2 = statusOf db q2 := by
  unfold statusOf
  rw [recordOf_updateQueueStatus_other db q q2 st ca now hne]

theorem statusOf_cancelQueue_other (db : QueueDB) (q q2 : Nat) (hne : q2 ≠ q) :
    statusOf (cancelQueue q db) q2 = statusOf db q2 := by
  unfold statusOf
  rw [recordOf_cancelQueue_other db q q2 hne]

theorem statusOf_markProcessing_mem (db : QueueDB) (qids : List Nat) (now : Nat)
    (q : Nat) (hq : q ∈ qids) :
    statusOf (markTasksAsProcessing qids now db) q =
      (statusOf db q).map (fun _ => QStatus.processing) := by
  unfold statusOf
  cases h : recordOf db q with
  | none =>
    unfold markTasksAsProcessing
    cases he : qids.isEmpty with
    | true => rw [if_pos rfl, h]; rfl
    | false =>
      simp only [Bool.false_eq_true, if_false]
      rw [recordOf_map db q _ (fun x => by by_cases hx : x.id ∈ qids <;> simp [hx]), h]
      rfl
  | some r =>
    rw [recordOf_markProcessing_mem db qids now q hq r h]
    rfl

theorem statusOf_markProcessing_not_mem (db : QueueDB) (qids : List Nat) (now : Nat)
    (q2 : Nat) (hq : q2 ∉ qids) :
    statusOf (markTasksAsProcessing qids now db) q2 = statusOf db q2 := by
  unfold statusOf
  rw [recordOf_markProcessing_not_mem db qids now q2 hq]

theorem sysInv_step (s : SysState) (op : SysOp) (hinv : SysInv s) (hwf : SysOpWF s op) :
    SysInv (applySysOp s op) := by
  obtain ⟨hnd, hin, hdup, hdisj, hfet⟩ := hinv
  cases op with
  | enq i t sv p now =>
    simp only [applySysOp]
    have hkeep : ∀ q2 : Nat, (statusOf s.db q2).isSome →
        statusOf (enqueue i t sv p now s.db) q2 = statusOf s.db q2 := by
      intro q2 h2
      rw [statusOf_enqueue]
      exact if_pos h2
    refine ⟨hnd, ?_, ?_, hdisj, ?_⟩
    · intro q hq
      rcases hin q hq with h | h
      · exact Or.inl (by rw [hkeep q (by rw [h]; rfl)]; exact h)
      · exact Or.inr (by rw [hkeep q (by rw [h]; rfl)]; exact h)
    · intro q hq
      rcases hdup q hq with h | h
      · exact Or.inl (by rw [hkeep q (by rw [h]; rfl)]; exact h)
      · exact Or.inr (by rw [hkeep q (by rw [h]; rfl)]; exact h)
    · intro qids hq
      obtain ⟨hqnd, hprop⟩ := hfet qids hq
      refine ⟨hqnd, ?_⟩
      intro q hqq
      obtain ⟨hst, hni, hnd2⟩ := hprop q hqq
      refine ⟨?_, hni, hnd2⟩
      rcases hst with h | h
      · exact Or.inl (by rw [hkeep q (by rw [h]; rfl)]; exact h)
      · exact Or.inr (by rw [hkeep q (by rw [h]; rfl)]; exact h)
  | fetchBatch qids =>
    simp only [applySysOp]
    obtain ⟨hfn, hqnd, hqw⟩ := hwf
    refine ⟨hnd, hin, hdup, hdisj, ?_⟩
    intro qids2 hq2
    have heq : qids = qids2 := by simpa using hq2
    subst heq
    refine ⟨hqnd, ?_⟩
    intro q hqq
    refine ⟨Or.inl (hqw q hqq), ?_, ?_⟩
    · intro hqi
      rcases hin q hqi with h | h
      · rw [hqw q hqq] at h; cases h
      · rw [hqw q hqq] at h; cases h
    · intro hqd
      rcases hdup q hqd with h | h
      · rw [hqw q hqq] at h; cases h
      · rw [hqw q hqq] at h; cases h
  | markBatch qids now =>
    simp only [applySysOp]
    have hf : s.fetched = some qids := hwf
    obtain ⟨hqnd, hprop⟩ := hfet qids hf
    have hdisj2 : ∀ q ∈ s.inflight, q ∉ qids := by
      intro q hq hmem
      exact (hprop q hmem).2.1 hq
    have hdisj3 : ∀ q ∈ s.dupFailed, q ∉ qids := by
      intro q hq hmem
      exact (hprop q hmem).2.2 hq
    refine ⟨List.Nodup.append hnd hqnd hdisj2, ?_, ?_, ?_, ?_⟩
    · intro q hq
      rcases List.mem_append.mp hq with hq | hq
      · rcases hin q hq with h | h
        · exact Or.inl
            (by rw [statusOf_markProcessing_not_mem s.db qids now q (hdisj2 q hq)]; exact h)
        · exact Or.inr
            (by rw [statusOf_markProcessing_not_mem s.db qids now q (hdisj2 q hq)]; exact h)
      · refine Or.inl ?_
        rw [statusOf_markProcessing_mem s.db qids now q hq]
        rcases (hprop q hq).1 with h | h
        · rw [h]; rfl
        · rw [h]; rfl
    · intro q hq
      rcases hdup q hq with h | h
      · exact Or.inl
          (by rw [statusOf_markProcessing_not_mem s.db qids now q (hdisj3 q hq)]; exact h)
      · exact Or.inr
          (by rw [statusOf_markProcessing_not_mem s.db qids now q (hdisj3 q hq)]; exact h)
    · intro q hq hmem
      rcases List.mem_append.mp hmem with hm | hm
      · exact hdisj q hq hm
      · exact hdisj3 q hq hm
    · intro qids2 hq2
      cases hq2
  | cancelIt qc =>
    simp only [applySysOp]
    refine ⟨hnd, ?_, ?_, hdisj, ?_⟩
    · intro q hq
      by_cases he : q = qc
      · subst he
        rcases hin q hq with h | h
        · exact Or.inr (by rw [statusOf_cancelQueue_self, h]; rfl)
        · exact Or.inr (by rw [statusOf_cancelQueue_self, h]; rfl)
      · rcases hin q hq with h | h
        · exact Or.inl (by rw [statusOf_cancelQueue_other s.db qc q he]; exact h)
        · exact Or.inr (by rw [statusOf_cancelQueue_other s.db qc q he]; exact h)
    · intro q hq
      by_cases he : q = qc
      · subst he
        rcases hdup q hq with h | h
        · exact Or.inr (by rw [statusOf_cancelQueue_self, h]; rfl)
        · exact Or.inr (by rw [statusOf_cancelQueue_self, h]; rfl)
      · rcases hdup q hq with h | h
        · exact Or.inl (by rw [statusOf_cancelQueue_other s.db qc q he]; exact h)
        · exact Or.inr (by rw [statusOf_cancelQueue_other s.db qc q he]; exact h)
    · intro qids hq
      obtain ⟨hqnd, hprop⟩ := hfet qids hq
      refine ⟨hqnd, ?_⟩
      intro q hqq
      obtain ⟨hst, hni, hnd2⟩ := hprop q hqq
      refine ⟨?_, hni, hnd2⟩
      by_cases he : q = qc
      · subst he
        rcases hst with h | h
        · exact Or.inr (by rw [statusOf_cancelQueue_self, h]; rfl)
        · exact Or.inr (by rw [statusOf_cancelQueue_self, h]; rfl)
      · rcases hst with h | h
        · exact Or.inl (by rw [statusOf_cancelQueue_other s.db qc q he]; exact h)
        · exact Or.inr (by rw [statusOf_cancelQueue_other s.db qc q he]; exact h)
  | finish qf ok now =>
    simp only [applySysOp]
    have hqf : qf ∈ s.inflight := hwf
    refine ⟨hnd.erase qf, ?_, ?_, ?_, ?_⟩
    · intro q hq
      have hne : q ≠ qf := ((List.Nodup.mem_erase_iff hnd).mp hq).1
      have hq2 : q ∈ s.inflight := ((List.Nodup.mem_erase_iff hnd).mp hq).2
      rcases hin q hq2 with h | h
      · exact Or.inl (by rw [statusOf_updateQueueStatus_other s.db qf q _ none now hne]; exact h)
      · exact Or.inr (by rw [statusOf_updateQueueStatus_other s.db qf q _ none now hne]; exact h)
    · intro q hq
      have hq2 : q ∈ (if ok then s.dupFailed else qf :: s.dupFailed) := hq
      by_cases he : q = qf
      · subst he
        have hst : statusOf s.db q = some QStatus.processing ∨
            statusOf s.db q = some QStatus.cancelled := hin q hqf
        have : statusOf (updateQueueStatus q (if ok then QStatus.completed else QStatus.failed)
            none now s.db) q = (statusOf s.db q).map
              (fun _ => if ok then QStatus.completed else QStatus.failed) :=
          statusOf_updateQueueStatus_self s.db q _ none now
        cases ok with
        | true =>
          exact absurd hqf (hdisj _ (by simpa using hq2))
        | false =>
          refine Or.inl ?_
          rw [this]
          rcases hst with h | h
          · rw [h]; rfl
          · rw [h]; rfl
      · have hqd : q ∈ s.dupFailed := by
          cases ok with
          | true => simpa using hq2
          | false =>
            rcases List.mem_cons.mp (by simpa using hq2) with h | h
            · exact absurd h he
            · exact h
        rcases hdup q hqd with h | h
        · exact Or.inl (by rw [statusOf_updateQueueStatus_other s.db qf q _ none now he]; exact h)
        · exact Or.inr (by rw [statusOf_updateQueueStatus_other s.db qf q _ none now he]; exact h)
    · intro q hq hmem
      have hq2 : q ∈ s.inflight.erase qf := hmem
      have hne : q ≠ qf := ((List.Nodup.mem_erase_iff hnd).mp hq2).1
      have hq3 : q ∈ s.inflight := ((List.Nodup.mem_erase_iff hnd).mp hq2).2
      have hqd : q ∈ s.dupFailed := by
        cases ok with
        | true => simpa using hq
        | false =>
          rcases List.mem_cons.mp (by simpa using hq) with h | h
          · exact absurd h hne
          · exact h
      exact hdisj q hqd hq3
    · intro qids hq
      obtain ⟨hqnd2, hprop⟩ := hfet qids hq
      refine ⟨hqnd2, ?_⟩
      intro q hqq
      obtain ⟨hst, hni, hnd2⟩ := hprop q hqq
      have hne : q ≠ qf := by
        intro he
        exact hni (he ▸ hqf)
      refine ⟨?_, ?_, ?_⟩
      · rcases hst with h | h
        · exact Or.inl (by rw [statusOf_updateQueueStatus_other s.db qf q _ none now hne]; exact h)
        · exact Or.inr (by rw [statusOf_updateQueueStatus_other s.db qf q _ none now hne]; exact h)
      · intro hmem
        exact hni (List.mem_of_mem_erase hmem)
      · intro hmem
        cases ok with
        | true => exact hnd2 (by simpa using hmem)
        | false =>
          rcases List.mem_cons.mp (by simpa using hmem) with h | h
          · exact hne h
          · exact hnd2 h
  | dupFinishFail qd now =>
    simp only [applySysOp]
    have hqd : qd ∈ s.dupFailed := hwf
    refine ⟨hnd, ?_, ?_, ?_, ?_⟩
    · intro q hq
      have hne : q ≠ qd := by
        intro he
        exact hdisj q (he ▸ hqd) hq
      rcases hin q hq with h | h
      · exact Or.inl (by rw [statusOf_updateQueueStatus_other s.db qd q _ none now hne]; exact h)
      · exact Or.inr (by rw [statusOf_updateQueueStatus_other s.db qd q _ none now hne]; exact h)
    · intro q hq
      have hq2 : q ∈ s.dupFailed := List.mem_of_mem_erase hq
      by_cases he : q = qd
      · subst he
        refine Or.inl ?_
        rw [statusOf_updateQueueStatus_self s.db q QStatus.failed none now]
        rcases hdup q hq2 with h | h
        · rw [h]; rfl
        · rw [h]; rfl
      · rcases hdup q hq2 with h | h
        · exact Or.inl (by rw [statusOf_updateQueueStatus_other s.db qd q _ none now he]; exact h)
        · exact Or.inr (by rw [statusOf_updateQueueStatus_other s.db qd q _ none now he]; exact h)
    · intro q hq
      exact hdisj q (List.mem_of_mem_erase hq)
    · intro qids hq
      obtain ⟨hqnd2, hprop⟩ := hfet qids hq
      refine ⟨hqnd2, ?_⟩
      intro q hqq
      obtain ⟨hst, hni, hnd2⟩ := hprop q hqq
      have hne : q ≠ qd := by
        intro he
        exact hnd2 (he ▸ hqd)
      refine ⟨?_, hni, ?_⟩
      · rcases hst with h | h
        · exact Or.inl (by rw [statusOf_updateQueueStatus_other s.db qd q _ none now hne]; exact h)
        · exact Or.inr (by rw [statusOf_updateQueueStatus_other s.db qd q _ none now hne]; exact h)
      · intro hmem
        exact hnd2 (List.mem_of_mem_erase hmem)

theorem sysInv_reachable (s : SysState) (h : SysReachable s) : SysInv s := by
  induction h with
  | init =>
    refine ⟨List.nodup_nil, ?_, ?_, ?_, ?_⟩ <;> intro q hq <;> cases hq
  | step s op _ hwf ih => exact sysInv_step s op ih hwf

/-- In a list sorted by `r`, the `take n` prefix is closed under elements
that cannot come after a retained element. -/
theorem mem_take_of_sorted {α : Type} {r : α → α → Prop} (l : List α) (n : Nat)
    (hs : List.Sorted r l) (a b : α) (ha : a ∈ l) (hb : b ∈ l.take n)
    (hnr : ¬ r b a) : a ∈ l.take n := by
  induction l generalizing n with
  | nil => cases ha
  | cons x tl ih =>
    cases n with
    | zero => simp at hb
    | succ m =>
      rw [List.take_succ_cons] at hb ⊢
      rcases List.mem_cons.mp ha with hax | hax
      · exact hax ▸ List.mem_cons_self x _
      · rcases List.mem_cons.mp hb with hbx | hbx
        · exact absurd (hbx ▸ List.rel_of_sorted_cons hs a hax) hnr
        · exact List.mem_cons_of_mem x (ih m hs.of_cons hax hbx)

theorem stepPending_cleaned (myId : String) (s : PendingCommand) (e : GatewayEvent)
    (h : cleanedWhenSettled s) : cleanedWhenSettled (stepPending myId s e) := by
  cases e with
  | resultEvent cid payload =>
    simp only [stepPending]
    split
    · cases payload with
      | some r =>
        dsimp only
        split
        · intro _; exact ⟨rfl, rfl⟩
        · intro _; exact ⟨rfl, rfl⟩
      | none => intro _; exact ⟨rfl, rfl⟩
    · exact h
  | timerFire =>
    simp only [stepPending]
    split
    · intro _; exact ⟨rfl, rfl⟩
    · exact h
  | ackError msg =>
    simp only [stepPending]
    intro _
    exact ⟨rfl, rfl⟩

theorem stepPending_settled_stable (myId : String) (s : PendingCommand)
    (e : GatewayEvent) (o : SettleOutcome) (h : s.settled = some o) :
    (stepPending myId s e).settled = some o := by
  cases e with
  | resultEvent cid payload =>
    simp only [stepPending]
    split
    · cases payload with
      | some r =>
        dsimp only
        split
        · simp [settleWith, cleanupPending, h]
        · simp [settleWith, cleanupPending, h]
      | none => simp [settleWith, cleanupPending, h]
    · exact h
  | timerFire =>
    simp only [stepPending]
    split
    · simp [settleWith, cleanupPending, h]
    · exact h
  | ackError msg =>
    simp only [stepPending]
    simp [settleWith, cleanupPending, h]

theorem stepPending_fixpoint (myId : String) (s : PendingCommand) (e : GatewayEvent)
    (o : SettleOutcome) (h1 : s.settled = some o) (h2 : s.listenerOn = false)
    (h3 : s.timerOn = false) : stepPending myId s e = s := by
  cases e with
  | resultEvent cid payload =>
    simp only [stepPending]
    rw [h2]
    simp
  | timerFire =>
    simp only [stepPending]
    rw [h3]
    simp
  | ackError msg =>
    simp only [stepPending]
    cases s with
    | mk st li ti =>
      simp only at h1 h2 h3
      subst h1 h2 h3
      simp [settleWith, cleanupPending]

theorem runPending_cleaned (myId : String) (evs : List GatewayEvent)
    (s : PendingCommand) (h : cleanedWhenSettled s) :
    cleanedWhenSettled (runPending myId s evs) := by
  induction evs generalizing s with
  | nil => exact h
  | cons e tl ih => exact ih (stepPending myId s e) (stepPending_cleaned myId s e h)

theorem runPending_settled_stable (myId : String) (evs : List GatewayEvent)
    (s : PendingCommand) (o : SettleOutcome) (h : s.settled = some o) :
    (runPending myId s evs).settled = some o := by
  induction evs generalizing s with
  | nil => exact h
  | cons e tl ih =>
    exact ih (stepPending myId s e) (stepPending_settled_stable myId s e o h)

theorem runPending_fixpoint (myId : String) (evs : List GatewayEvent)
    (s : PendingCommand) (o : SettleOutcome) (h1 : s.settled = some o)
    (h2 : s.listenerOn = false) (h3 : s.timerOn = false) :
    runPending myId s evs = s := by
  induction evs with
  | nil => rfl
  | cons e tl ih =>
    unfold runPending
    rw [List.foldl_cons, stepPending_fixpoint myId s e o h1 h2 h3]
    exact ih

/-! The specified claims. -/

/-- C1: when the task is found, the execution records are created and no
exception escapes dispatch, `executeTask` marks the queue item
`completed` unconditionally — for every per-host outcome assignment,
including all-failed; the queue item is marked `failed` exactly on the
pipeline-level exception paths (task not found, creation failure, no
records created, exception escaping dispatch). -/
theorem c1_queue_completed_unconditionally (t : TaskRec) (serverIds : List Nat)
    (outcomes : Nat → HostOutcome) (createOk : Bool) (reconcileErr : Option String) :
    (serverIds ≠ [] →
      (executeTaskModel (some t) true serverIds outcomes none).1 = QStatus.completed)
    ∧ (executeTaskModel none createOk serverIds outcomes reconcileErr).1 = QStatus.failed
    ∧ (createOk = false →
      (executeTaskModel (some t) createOk serverIds outcomes reconcileErr).1 = QStatus.failed)
    ∧ (∀ e, serverIds ≠ [] →
      (executeTaskModel (some t) true serverIds outcomes (some e)).1 = QStatus.failed)
    ∧ (serverIds = [] →
      (executeTaskModel (some t) createOk serverIds outcomes reconcileErr).1 = QStatus.failed) := by
  refine ⟨?_, rfl, ?_, ?_, ?_⟩
  · intro hne
    have hE : serverIds.isEmpty = false := by
      cases serverIds with
      | nil => exact absurd rfl hne
      | cons a l => rfl
    simp [executeTaskModel, hE]
  · intro hco
    simp [executeTaskModel, hco]
  · intro e hne
    have hE : serverIds.isEmpty = false := by
      cases serverIds with
      | nil => exact absurd rfl hne
      | cons a l => rfl
    simp [executeTaskModel, hE]
  · intro hnil
    subst hnil
    cases createOk with
    | true => simp [executeTaskModel]
    | false => simp [executeTaskModel]

/-- C1 witness: a concrete two-host run in which both hosts fail with a
connectivity error, every execution record is reconciled as `failed`,
and the queue item still ends `completed`. -/
theorem c1_witness :
    (executeTaskModel (some exTask) true [1, 2] exErrOutcomes none).1 = QStatus.completed
    ∧ ((executeTaskModel (some exTask) true [1, 2] exErrOutcomes none).2.map
        (fun p => p.2.status)) = [EStatus.failed, EStatus.failed] :=
  ⟨(c1_queue_completed_unconditionally exTask [1, 2] exErrOutcomes true none).1
      (by decide),
    by decide⟩

/-- C2 counterexample: for a direct-connection host whose SSH connection
attempt fails (host unreachable), `executeCommand` throws the
connection error to its caller instead of resolving with exit code 1. -/
theorem c2_counterexample :
    executeCommand exDirectServer exConnFailEnv =
      Except.error "无法连接到服务器 10.0.0.1:22: connect ECONNREFUSED"
    ∧ (executeCommand exDirectServer exConnFailEnv).isOk = false := by
  exact ⟨rfl, rfl⟩

/-- C2 amended: for proxy-connected hosts `executeCommand` never throws —
agent-offline and relay failures (including the relay timeout) resolve
with `exitCode = 1` and the failure text in `stderr`; for
direct-connection hosts, only a failure of the command on an established
session resolves as `exitCode = 1` with stderr populated, while a failure
to establish the connection propagates as a thrown error. -/
theorem c2_transport_error_representation (server : ServerRec) (env : SshEnv) :
    (server.connectionType = "proxy" → strTruthy server.proxyId = true →
      executeCommand server env = Except.ok (executeCommandViaProxy server env))
    ∧ (strTruthy server.proxyId = true → env.proxyOnline = false →
      executeCommandViaProxy server env =
        { stdout := "", stderr := "代理 " ++ (server.proxyId.getD "") ++ " 未连接",
          exitCode := 1 })
    ∧ (∀ e, strTruthy server.proxyId = true → env.proxyOnline = true →
        env.sendOutcome = Except.error e →
        executeCommandViaProxy server env = { stdout := "", stderr := e, exitCode := 1 })
    ∧ (∀ e, ¬ (server.connectionType = "proxy" ∧ strTruthy server.proxyId = true) →
        getConnection server env = Except.ok () → env.execOutcome = Except.error e →
        executeCommand server env = Except.ok { stdout := "", stderr := e, exitCode := 1 })
    ∧ (∀ e1, ¬ (server.connectionType = "proxy" ∧ strTruthy server.proxyId = true) →
        getConnection server env = Except.error e1 →
        executeCommand server env = Except.error e1) := by
  refine ⟨?_, ?_, ?_, ?_, ?_⟩
  · intro h1 h2
    simp [executeCommand, h1, h2]
  · intro h1 h2
    simp [executeCommandViaProxy, h1, h2]
  · intro e h1 h2 h3
    simp [executeCommandViaProxy, h1, h2, h3]
  · intro e hnp hgc hex
    have hcond : (decide (server.connectionType = "proxy") && strTruthy server.proxyId) = false := by
      by_cases hA : server.connectionType = "proxy"
      · cases hB : strTruthy server.proxyId with
        | true => exact absurd ⟨hA, hB⟩ hnp
        | false => simp [hA, hB]
      · simp [hA]
    simp [executeCommand, hcond, hgc, hex]
  · intro e1 hnp hgc
    have hcond : (decide (server.connectionType = "proxy") && strTruthy server.proxyId) = false := by
      by_cases hA : server.connectionType = "proxy"
      · cases hB : strTruthy server.proxyId with
        | true => exact absurd ⟨hA, hB⟩ hnp
        | false => simp [hA, hB]
      · simp [hA]
    simp [executeCommand, hcond, hgc]

/-- C2 witness: a proxy host whose agent is offline resolves (does not
throw) with exit code 1 and the offline condition in stderr. -/
theorem c2_witness :
    executeCommand exProxyServer exConnFailEnv =
      Except.ok { stdout := "", stderr := "代理 p1 未连接", exitCode := 1 } := by
  have h := c2_transport_error_representation exProxyServer exConnFailEnv
  rw [h.1 rfl (by decide), h.2.1 (by decide) rfl]
  rfl

/-- C4 counterexample: updating task 7's command from old to new leaves
the cache entry in place, and a `getTask` within the TTL still returns
the stale old row without any storage fetch. -/
theorem c4_counterexample :
    (tasksServiceUpdate 7 exUpdateDto exStore exCache).1 =
      [{ exOldTask with command := "new" }]
    ∧ (tasksServiceUpdate 7 exUpdateDto exStore exCache).2 = exCache
    ∧ getTask 7 1000 (tasksServiceUpdate 7 exUpdateDto exStore exCache).2
        (tasksServiceUpdate 7 exUpdateDto exStore exCache).1 =
      { task := some exOldTask, cache := exCache, fetchedFromStore := false } := by
  exact ⟨by decide, by decide, by decide⟩

/-- The fetch branch of `getTask` always queries storage. -/
theorem getTaskFetch_fetched (taskId now : Nat) (cache : TaskCache) (store : TaskStore) :
    (getTask.getTaskFetch taskId now cache store).fetchedFromStore = true := by
  unfold getTask.getTaskFetch
  cases store.find? (fun t => t.id = taskId) with
  | none => rfl
  | some t => rfl

/-- C4 amended: task mutations (`TasksService.update` / `remove`) do not
invalidate the execution cache; a cache entry younger than the TTL is
served as-is with no storage fetch, so a read after a mutation within the
TTL returns the stale value, and only an entry older than the TTL (or a
missing entry) forces a storage fetch. -/
theorem c4_cache_not_invalidated_on_task_mutation (id : Nat) (dto : UpdateTaskDto)
    (store : TaskStore) (execs : List (Nat × Nat)) (cache : TaskCache) (now : Nat) :
    (tasksServiceUpdate id dto store cache).2 = cache
    ∧ (tasksServiceRemove id store execs cache).2.2 = cache
    ∧ (∀ e, cacheGet id cache = some e → now - e.timestamp < cacheTTL →
        getTask id now cache store =
          { task := some e.value, cache := cache, fetchedFromStore := false })
    ∧ (∀ e, cacheGet id cache = some e → cacheTTL ≤ now - e.timestamp →
        (getTask id now cache store).fetchedFromStore = true)
    ∧ (cacheGet id cache = none → (getTask id now cache store).fetchedFromStore = true) := by
  refine ⟨rfl, rfl, ?_, ?_, ?_⟩
  · intro e he hlt
    simp only [getTask]
    rw [he]
    simp [hlt]
  · intro e he hge
    simp only [getTask]
    rw [he]
    have hnlt : ¬ now - e.timestamp < cacheTTL := not_lt.mpr hge
    simp only [hnlt, if_false]
    exact getTaskFetch_fetched id now cache store
  · intro he
    simp only [getTask]
    rw [he]
    exact getTaskFetch_fetched id now cache store

/-- C4 witness: the fresh cache entry for task 7 is served without a
storage fetch. -/
theorem c4_witness :
    getTask 7 1000 exCache exStore =
      { task := some exOldTask, cache := exCache, fetchedFromStore := false } :=
  (c4_cache_not_invalidated_on_task_mutation 7 exUpdateDto exStore [] exCache 1000).2.2.1
    { value := exOldTask, timestamp := 0 } rfl (by decide)

/-- C5: a tick claims at most `maxConcurrentTasks - runningTasks` rows
under any backlog; it claims nothing when a previous tick is still
running or the running counter has reached the ceiling, and the ceiling
defaults to 10. -/
theorem c5_claim_bounded_by_available_slots (isP : Bool) (running : Nat) (db : QueueDB) :
    (processTickClaim isP running db).length ≤ maxConcurrentTasks - running
    ∧ (isP = true → processTickClaim isP running db = [])
    ∧ (maxConcurrentTasks ≤ running → processTickClaim isP running db = [])
    ∧ maxConcurrentTasks = 10 := by
  refine ⟨?_, ?_, ?_, rfl⟩
  · simp only [processTickClaim]
    by_cases hg : checkResourceAvailability isP running = true
    · rw [if_pos hg]
      by_cases hs : calculateAvailableSlots running ≤ 0
      · rw [if_pos hs]
        simp
      · rw [if_neg hs]
        have h1 : (fetchWaitingTasks (calculateAvailableSlots running).toNat db).length ≤
            (calculateAvailableSlots running).toNat := by
          unfold fetchWaitingTasks
          simpa using List.length_take_le _ _
        refine h1.trans ?_
        unfold calculateAvailableSlots maxConcurrentTasks
        omega
    · rw [if_neg hg]
      simp
  · intro hP
    simp [processTickClaim, checkResourceAvailability, hP]
  · intro hR
    simp [processTickClaim, checkResourceAvailability, decide_eq_true hR]

/-- C5 witness: with 3 running tasks a tick claims at most 7 rows; a tick
re-entered while processing, or at the ceiling of 10, claims nothing. -/
theorem c5_witness :
    (processTickClaim false 3 wdb).length ≤ maxConcurrentTasks - 3
    ∧ processTickClaim true 0 wdb = []
    ∧ processTickClaim false 10 wdb = [] :=
  ⟨(c5_claim_bounded_by_available_slots false 3 wdb).1,
    (c5_claim_bounded_by_available_slots true 0 wdb).2.1 rfl,
    (c5_claim_bounded_by_available_slots false 10 wdb).2.2.1 (by decide)⟩

/-- C3 counterexample: both unguarded scheduler/executor writes overwrite
the terminal status `cancelled`: a row cancelled between the tick's
fetch and its mark-processing write is overwritten back to `processing`,
and a row cancelled while its executor is in flight is afterwards
overwritten to `completed` by the executor's reconciliation write —
operations other than `cancel` overwriting a terminal status. -/
theorem c3_counterexample_cancel_race :
    SysReachable cexS6
    ∧ statusOf cexS3.db 1 = some QStatus.cancelled
    ∧ statusOf cexS4.db 1 = some QStatus.processing
    ∧ statusOf cexS5.db 1 = some QStatus.cancelled
    ∧ statusOf cexS6.db 1 = some QStatus.completed := by
  refine ⟨?_, by decide, by decide, by decide, by decide⟩
  refine SysReachable.step cexS5 (SysOp.finish 1 true 2) ?_
    (show (1 : Nat) ∈ cexS5.inflight by decide)
  refine SysReachable.step cexS4 (SysOp.cancelIt 1) ?_ trivial
  refine SysReachable.step cexS3 (SysOp.markBatch [1] 1) ?_
    (show cexS3.fetched = some [1] from rfl)
  refine SysReachable.step cexS2 (SysOp.cancelIt 1) ?_ trivial
  refine SysReachable.step cexS1 (SysOp.fetchBatch [1]) ?_
    ⟨rfl, by decide, by decide⟩
  exact SysReachable.step _ (SysOp.enq 1 5 [2] 0 0) SysReachable.init
    (show recordOf ([] : QueueDB) 1 = none from rfl)

/-- C3 amended: over every reachable system state, each operation changes
a queue row's status only along: creation as `waiting`;
`waiting → processing` on the tick's mark write; `processing → completed
| failed` on the executor's finish write; `cancel` setting `cancelled`
from any state; the tick's mark write landing as
`cancelled → processing` for a row cancelled between the tick's fetch
and its mark; the executor's finish write landing as
`cancelled → completed | failed` for an item cancelled while in flight;
and the scheduler's duplicate failure write re-marking
`failed → failed` (or `cancelled → failed`); no other overwrite of a
terminal status occurs. -/
theorem c3_status_transitions (s : SysState) (op : SysOp) (qid : Nat)
    (hr : SysReachable s) (hwf : SysOpWF s op) :
    statusTransOK (statusOf s.db qid) (statusOf (applySysOp s op).db qid) := by
  obtain ⟨hnd, hin, hdup, hdisj, hfet⟩ := sysInv_reachable s hr
  cases op with
  | enq i t sv p now =>
    simp only [applySysOp]
    rw [statusOf_enqueue]
    by_cases hs : (statusOf s.db qid).isSome = true
    · rw [if_pos hs]
      exact Or.inl rfl
    · rw [if_neg hs]
      have hnone : statusOf s.db qid = none := Option.not_isSome_iff_eq_none.mp hs
      by_cases hi : i = qid
      · rw [if_pos hi]
        exact Or.inr (Or.inl ⟨hnone, rfl⟩)
      · rw [if_neg hi, hnone]
        exact Or.inl rfl
  | fetchBatch qids =>
    simp only [applySysOp]
    exact Or.inl rfl
  | markBatch qids now =>
    simp only [applySysOp]
    have hf : s.fetched = some qids := hwf
    obtain ⟨hqnd, hprop⟩ := hfet qids hf
    by_cases hm : qid ∈ qids
    · rw [statusOf_markProcessing_mem s.db qids now qid hm]
      rcases (hprop qid hm).1 with h | h
      · rw [h]
        exact Or.inr (Or.inr (Or.inl ⟨rfl, rfl⟩))
      · rw [h]
        exact Or.inr (Or.inr (Or.inr (Or.inr (Or.inr (Or.inr (Or.inr ⟨rfl, rfl⟩))))))
    · rw [statusOf_markProcessing_not_mem s.db qids now qid hm]
      exact Or.inl rfl
  | cancelIt qc =>
    simp only [applySysOp]
    by_cases he : qid = qc
    · subst he
      rw [statusOf_cancelQueue_self]
      cases hs : statusOf s.db qid with
      | none => exact Or.inl rfl
      | some st =>
        exact Or.inr (Or.inr (Or.inr (Or.inl ⟨Option.some_ne_none st, rfl⟩)))
    · rw [statusOf_cancelQueue_other s.db qc qid he]
      exact Or.inl rfl
  | finish qf ok now =>
    simp only [applySysOp]
    have hqf : qf ∈ s.inflight := hwf
    by_cases he : qid = qf
    · subst he
      rw [statusOf_updateQueueStatus_self]
      rcases hin qid hqf with h | h
      · rw [h]
        cases ok with
        | true => exact Or.inr (Or.inr (Or.inr (Or.inr (Or.inl ⟨rfl, Or.inl rfl⟩))))
        | false => exact Or.inr (Or.inr (Or.inr (Or.inr (Or.inl ⟨rfl, Or.inr rfl⟩))))
      · rw [h]
        cases ok with
        | true => exact Or.inr (Or.inr (Or.inr (Or.inr (Or.inr (Or.inl ⟨rfl, Or.inl rfl⟩)))))
        | false => exact Or.inr (Or.inr (Or.inr (Or.inr (Or.inr (Or.inl ⟨rfl, Or.inr rfl⟩)))))
    · rw [statusOf_updateQueueStatus_other s.db qf qid _ none now he]
      exact Or.inl rfl
  | dupFinishFail qd now =>
    simp only [applySysOp]
    have hqd : qd ∈ s.dupFailed := hwf
    by_cases he : qid = qd
    · subst he
      rw [statusOf_updateQueueStatus_self]
      rcases hdup qid hqd with h | h
      · rw [h]
        exact Or.inr (Or.inr (Or.inr (Or.inr (Or.inr (Or.inr (Or.inl ⟨rfl, rfl⟩))))))
      · rw [h]
        exact Or.inr (Or.inr (Or.inr (Or.inr (Or.inr (Or.inl ⟨rfl, Or.inr rfl⟩)))))
    · rw [statusOf_updateQueueStatus_other s.db qd qid _ none now he]
      exact Or.inl rfl

/-- C3 witness: enqueueing row 1 into the empty system is a transition
allowed by the amended relation. -/
theorem c3_witness :
    statusTransOK (statusOf ([] : QueueDB) 1)
      (statusOf (applySysOp { db := [], inflight := [], dupFailed := [], fetched := none }
        (SysOp.enq 1 5 [2] 0 0)).db 1) :=
  c3_status_transitions { db := [], inflight := [], dupFailed := [], fetched := none }
    (SysOp.enq 1 5 [2] 0 0) 1 SysReachable.init
    (show recordOf ([] : QueueDB) 1 = none from rfl)

/-- C6: the rows a tick claims are sorted by priority descending then
creation time ascending, and the claimed set is closed under waiting rows
that sort strictly earlier: a waiting row with strictly higher priority,
or equal priority and strictly earlier creation, than some claimed row is
itself claimed. -/
theorem c6_claim_order_priority_then_fifo (limit : Nat) (db : QueueDB) :
    List.Sorted queueBefore (fetchWaitingTasks limit db)
    ∧ ∀ a b : QueueRecord, a ∈ db → a.status = QStatus.waiting →
        b ∈ fetchWaitingTasks limit db →
        (b.priority < a.priority ∨ (a.priority = b.priority ∧ a.createdAt < b.createdAt)) →
        a ∈ fetchWaitingTasks limit db := by
  constructor
  · unfold fetchWaitingTasks
    exact (List.sorted_insertionSort queueBefore _).sublist (List.take_sublist _ _)
  · intro a b hadb haw hbtake hstrict
    unfold fetchWaitingTasks at hbtake ⊢
    have hafilter : a ∈ db.filter (fun r => r.status = QStatus.waiting) := by
      rw [List.mem_filter]
      exact ⟨hadb, by simp [haw]⟩
    have hasort : a ∈ List.insertionSort queueBefore
        (db.filter (fun r => r.status = QStatus.waiting)) :=
      ((List.perm_insertionSort queueBefore _).mem_iff).mpr hafilter
    refine mem_take_of_sorted _ limit (List.sorted_insertionSort queueBefore _)
      a b hasort hbtake ?_
    intro hba
    unfold queueBefore at hba
    rcases hstrict with h | ⟨h1, h2⟩
    · rcases hba with h2 | ⟨h2, _⟩
      · omega
      · omega
    · rcases hba with h3 | ⟨h3, h4⟩
      · omega
      · omega

/-- C6 witness: in a backlog where row 2 (priority 5, created at 9) is
claimed, row 3 (priority 5, created at 4) is also claimed; the claimed
list is sorted. -/
theorem c6_witness :
    List.Sorted queueBefore (fetchWaitingTasks 2 wdb)
    ∧ wRow3 ∈ fetchWaitingTasks 2 wdb :=
  ⟨(c6_claim_order_priority_then_fifo 2 wdb).1,
    (c6_claim_order_priority_then_fifo 2 wdb).2 wRow3 wRow2 (by decide) (by decide)
      (by decide) (by decide)⟩

/-- C7: a pending `sendCommand` settles at most once — once settled, its
listener and timer are removed, every further event (including a late
matching `command_result`) leaves the state exactly unchanged; the timer
firing on an unsettled pending command rejects with the timeout error and
cleans up; a matching well-shaped `command_result` on an unsettled
pending command resolves and cleans up; and the wait bound defaults to
30000 ms when no timeout is given. -/
theorem c7_send_command_settles_once (myId : String) (evs : List GatewayEvent) :
    ((runPending myId initialPending evs).settled.isSome = true →
      (runPending myId initialPending evs).listenerOn = false ∧
        (runPending myId initialPending evs).timerOn = false)
    ∧ (∀ (o : SettleOutcome) (evs2 : List GatewayEvent),
        (runPending myId initialPending evs).settled = some o →
        runPending myId (runPending myId initialPending evs) evs2 =
          runPending myId initialPending evs)
    ∧ (∀ s : PendingCommand, s.settled = none → s.timerOn = true →
        stepPending myId s GatewayEvent.timerFire =
          { settled := some (SettleOutcome.rejected "命令执行超时"),
            listenerOn := false, timerOn := false })
    ∧ (∀ (s : PendingCommand) (r : RawResult), s.settled = none → s.listenerOn = true →
        shapeValid r = true →
        stepPending myId s (GatewayEvent.resultEvent myId (some r)) =
          { settled := some (SettleOutcome.resolved (toCommandResult r)),
            listenerOn := false, timerOn := false })
    ∧ maxWaitTime none = 30000 := by
  have hinit : cleanedWhenSettled initialPending := by
    intro hs
    simp [initialPending] at hs
  refine ⟨?_, ?_, ?_, ?_, rfl⟩
  · exact runPending_cleaned myId evs initialPending hinit
  · intro o evs2 h
    have hc := runPending_cleaned myId evs initialPending hinit (by rw [h]; rfl)
    exact runPending_fixpoint myId evs2 _ o h hc.1 hc.2
  · intro s h1 h2
    simp [stepPending, h1, h2, settleWith, cleanupPending]
  · intro s r h1 h2 h3
    simp [stepPending, h1, h2, h3, settleWith, cleanupPending]

/-- C7 witness: a pending command that timed out rejects with the timeout
error, its listener and timer are removed, and a late matching
`command_result` leaves the state exactly unchanged. -/
theorem c7_witness :
    (runPending "c1" initialPending [GatewayEvent.timerFire]).settled =
      some (SettleOutcome.rejected "命令执行超时")
    ∧ runPending "c1" (runPending "c1" initialPending [GatewayEvent.timerFire])
        [GatewayEvent.resultEvent "c1"
          (some { stdoutField := some "late", stderrField := some "", exitCodeField := some 0 })] =
      runPending "c1" initialPending [GatewayEvent.timerFire] :=
  ⟨by decide,
    (c7_send_command_settles_once "c1" [GatewayEvent.timerFire]).2.1
      (SettleOutcome.rejected "命令执行超时") _ (by decide)⟩

/-- C8: each host's outcome is reconciled independently: every execution
id keeps its own entry in the joint result, a host whose command exits 0
is recorded `completed` whatever the other hosts' outcomes, and a host
whose transport call threw is recorded `failed` with exit code -1 and the
error message as output. -/
theorem c8_per_host_isolation (execIds : List Nat) (outcomes : Nat → HostOutcome)
    (i : Nat) (hi : i ∈ execIds) :
    ((i, processOne (dispatchOne i (outcomes i))) ∈ runHosts execIds outcomes)
    ∧ (∀ out errS, outcomes i = HostOutcome.ok out errS 0 →
        processOne (dispatchOne i (outcomes i)) =
          { status := EStatus.completed, output := "stdout: " ++ out ++ "\nstderr: " ++ errS,
            exitCode := some 0, completedAtSet := true })
    ∧ (∀ m, outcomes i = HostOutcome.err m none →
        processOne (dispatchOne i (outcomes i)) =
          { status := EStatus.failed,
            output := jsOrString m "Execution failed or promise rejected",
            exitCode := some (-1), completedAtSet := true }) := by
  refine ⟨List.mem_map_of_mem _ hi, ?_, ?_⟩
  · intro out errS h
    rw [h]
    simp [dispatchOne, processOne]
  · intro m h
    rw [h]
    simp [dispatchOne, processOne]

/-- C8 witness: with host 1 exiting 0 and host 2 unreachable, host 1 is
recorded `completed` with exit code 0 while host 2 is recorded `failed`
with exit code -1. -/
theorem c8_witness :
    ((1, processOne (dispatchOne 1 (exMixedOutcomes 1))) ∈ runHosts [1, 2] exMixedOutcomes)
    ∧ processOne (dispatchOne 1 (exMixedOutcomes 1)) =
      { status := EStatus.completed, output := "stdout: out\nstderr: ",
        exitCode := some 0, completedAtSet := true }
    ∧ processOne (dispatchOne 2 (exMixedOutcomes 2)) =
      { status := EStatus.failed, output := "unreachable",
        exitCode := some (-1), completedAtSet := true } :=
  ⟨(c8_per_host_isolation [1, 2] exMixedOutcomes 1 (by decide)).1,
    (c8_per_host_isolation [1, 2] exMixedOutcomes 1 (by decide)).2.1 "out" "" (by decide),
    by decide⟩

/-- C9 counterexample: `cancel` on an existing row reaches the terminal
status `cancelled` without setting `completedAt`. -/
theorem c9_counterexample_cancel_no_completed_at :
    statusOf (cancelQueue 1 (enqueue 1 5 [2] 0 0 [])) 1 = some QStatus.cancelled
    ∧ (recordOf (cancelQueue 1 (enqueue 1 5 [2] 0 0 [])) 1).map (fun r => r.completedAt) =
      some none := by
  exact ⟨by decide, by decide⟩

/-- C9 amended: transitions into `completed` or `failed` (via
`updateQueueStatus`) set `completedAt`; transitions into `processing`
(via `updateQueueStatus` or `markTasksAsProcessing`) set `startedAt`;
but the transition into `cancelled` via `cancel` writes only the status
and leaves `completedAt` unchanged (unset). -/
theorem c9_terminal_timestamps (db : QueueDB) (qid : Nat) (ca : Option Nat) (now : Nat)
    (qids : List Nat) (r : QueueRecord) (h : recordOf db qid = some r) :
    recordOf (updateQueueStatus qid QStatus.completed ca now db) qid =
      some { r with status := QStatus.completed, completedAt := some (ca.getD now) }
    ∧ recordOf (updateQueueStatus qid QStatus.failed ca now db) qid =
      some { r with status := QStatus.failed, completedAt := some (ca.getD now) }
    ∧ recordOf (updateQueueStatus qid QStatus.processing ca now db) qid =
      some { r with status := QStatus.processing, startedAt := some now }
    ∧ (qid ∈ qids → recordOf (markTasksAsProcessing qids now db) qid =
        some { r with status := QStatus.processing, startedAt := some now })
    ∧ recordOf (cancelQueue qid db) qid = some { r with status := QStatus.cancelled }
    ∧ ({ r with status := QStatus.cancelled } : QueueRecord).completedAt = r.completedAt := by
  refine ⟨?_, ?_, ?_, ?_, recordOf_cancelQueue_self db qid r h, rfl⟩
  · rw [recordOf_updateQueueStatus_self db qid _ ca now r h]
    simp [applyStatusData]
  · rw [recordOf_updateQueueStatus_self db qid _ ca now r h]
    simp [applyStatusData]
  · rw [recordOf_updateQueueStatus_self db qid _ ca now r h]
    simp [applyStatusData]
  · intro hm
    exact recordOf_markProcessing_mem db qids now qid hm r h

/-- C9 witness: finishing row 1 as `completed` at time 9 sets its
`completedAt` to 9. -/
theorem c9_witness :
    recordOf (updateQueueStatus 1 QStatus.completed none 9 (enqueue 1 5 [2] 0 0 [])) 1 =
      some { id := 1, taskId := 5, serverIds := [2], priority := 0,
             status := QStatus.completed, createdAt := 0, startedAt := none,
             completedAt := some 9 } :=
  (c9_terminal_timestamps (enqueue 1 5 [2] 0 0 []) 1 none 9 []
    { id := 1, taskId := 5, serverIds := [2], priority := 0, status := QStatus.waiting,
      createdAt := 0, startedAt := none, completedAt := none } rfl).1

/-- C10: the running-task counter starting at 0 stays non-negative under
every finite sequence of increments and (clamped) decrements; the
increment adds exactly one and the decrement clamps at 0. -/
theorem c10_running_counter_nonneg (ops : List CounterOp) :
    0 ≤ runCounter ops
    ∧ (∀ n : Int, incrementRunningTasks n = n + 1)
    ∧ (∀ n : Int, 0 ≤ decrementRunningTasks n) := by
  refine ⟨?_, fun n => rfl, fun n => le_max_left 0 _⟩
  have h : ∀ (l : List CounterOp) (n : Int), 0 ≤ n → 0 ≤ l.foldl applyCounterOp n := by
    intro l
    induction l with
    | nil =>
      intro n hn
      simpa using hn
    | cons op tl ih =>
      intro n hn
      rw [List.foldl_cons]
      refine ih _ ?_
      cases op with
      | inc =>
        simp only [applyCounterOp, incrementRunningTasks]
        omega
      | dec =>
        simp only [applyCounterOp, decrementRunningTasks]
        exact le_max_left 0 _
  exact h ops 0 le_rfl

end Servbatch
